import Mathlib

/-!
Verification development for the TTAPI-Scrap repository (src/ophelia.py).

The script reads a spreadsheet of TikTok URLs, fetches per-post metadata
through an external client, classifies each row (duplicate / out-of-range /
error / success) and writes statuses, view counts and red highlighting back.

Shallow embedding conventions:
  * Python strings are `List Char`; substring tests model Python's `in`.
  * The external pieces are oracles passed as functions: the TikTokApi client
    is `client : List Char → Except (List Char) VideoData` (exception message
    or metadata mapping), HEAD-redirect resolution is an
    `Option Url` outcome (`none` models a raised exception), and timestamp
    conversion `utc_to_local` is `toLocal : Int → Option Int` (`none` models a
    conversion failure).
  * `urlparse` is modelled by bundling the parse with the raw text in `Url`:
    `netloc` and `path` are the components `urlparse` yields for `raw`.
  * Timestamps and the configured date window are integers with the usual
    order; only comparisons matter to the logic.
  * The spreadsheet has the full 11 columns (URL at 8, status at 9, result at
    10), so the `df.insert` branch for narrow sheets does not fire; cell fills
    are per-column `Option CellColor` values.
-/

namespace Ophelia

/-- Substring test on character lists, modelling Python's `in` operator. -/
def isSub (needle : List Char) : List Char → Bool
  | [] => needle.isEmpty
  | c :: t => needle.isPrefixOf (c :: t) || isSub needle t

/-- Python `str.replace(pat, rep)`: replace every non-overlapping occurrence
of a (nonempty) pattern, scanning left to right. -/
def replaceAll (pat rep : List Char) : List Char → List Char
  | [] => []
  | c :: t =>
      if pat.isEmpty = false ∧ pat.isPrefixOf (c :: t) = true then
        rep ++ replaceAll pat rep (t.drop (pat.length - 1))
      else
        c :: replaceAll pat rep t
termination_by s => s.length
decreasing_by
  all_goals simp_all [List.length_drop]
  omega

/-- Python `str.strip()`: drop whitespace from both ends. -/
def stripChars (s : List Char) : List Char :=
  ((s.dropWhile Char.isWhitespace).reverse.dropWhile Char.isWhitespace).reverse

/-- Last `n` characters of a string, modelling Python's `s[-n:]`. -/
def lastChars (n : Nat) (s : List Char) : List Char :=
  s.drop (s.length - n)

/-- A URL together with the `netloc` and `path` components that `urlparse`
yields for its raw text (the parse is carried as data, since `urlparse`
itself is a library collaborator). -/
structure Url where
  raw : List Char
  netloc : List Char
  path : List Char
deriving DecidableEq, Repr

def defaultUrl : Url := ⟨[], [], []⟩

def tiktokDomain : List Char := "tiktok.com".data

/-- Line 13-16 of ophelia.py: `is_tiktok_url`. -/
def is_tiktok_url (u : Url) : Bool :=
  tiktokDomain.isSuffixOf u.netloc

/-- Line 18-25 of ophelia.py: `is_tiktok_content_url`.  Python operator
precedence groups line 25 as
`(any [...]) or (('@' in path) and ('/video' in path or '/photo' in path))`. -/
def is_tiktok_content_url (u : Url) : Bool :=
  if !(tiktokDomain.isSuffixOf u.netloc) then
    false
  else
    let path := u.path.map Char.toLower
    (isSub "/video/".data path || isSub "/photo/".data path)
      || (isSub "@".data path
            && (isSub "/video".data path || isSub "/photo".data path))

/-- The two stat fields the script looks at, each possibly absent
(`data.get("stats", {})` lookups). -/
structure Stats where
  playCount : Option Nat
  viewCount : Option Nat
deriving DecidableEq, Repr

/-- One step of a Python `or` chain on numbers: `a or k` keeps `a` only when
it is present and truthy (nonzero). -/
def truthyOr (a : Option Nat) (k : Nat) : Nat :=
  match a with
  | some v => if v = 0 then k else v
  | none => k

/-- Line 46 of ophelia.py:
`views = stats.get("playCount") or stats.get("viewCount") or 0`. -/
def extract_views (s : Stats) : Nat :=
  truthyOr s.playCount (truthyOr s.viewCount 0)

/-- The spec's reading of the view-count extraction, for comparison: the
first of the two fields that is PRESENT wins (a present 0 is used), default
0 when both are absent. -/
def extract_views_claim (s : Stats) : Nat :=
  match s.playCount with
  | some v => v
  | none => s.viewCount.getD 0

/-- The post-metadata mapping returned by `video.info()`, restricted to the
keys the script reads. -/
structure VideoData where
  hasImagePost : Bool
  stats : Stats
  id : Option (List Char)
  createTime : Option Int
deriving DecidableEq

/-- Result of `get_tiktok_data`: either the error dict
`{'status': 'error', 'message': m}` or the success dict of line 62-67. -/
inductive FetchResult where
  | error (message : List Char)
  | success (views : Nat) (createTime : Option Int)
      (postId : Option (List Char)) (isPhoto : Bool)
deriving DecidableEq

def notContentMsg : List Char := "Not a content URL".data

def vtHost : List Char := "vt.tiktok.com".data

def photoSeg : List Char := "/photo/".data

def videoSeg : List Char := "/video/".data

/-- Line 65 of ophelia.py: `str(post_id) if post_id else None` — a null or
empty (falsy) raw id becomes a null post identifier. -/
def extract_post_id (idv : Option (List Char)) : Option (List Char) :=
  match idv with
  | some s => if s.isEmpty then none else some s
  | none => none

/-- Lines 49-60 of ophelia.py: a falsy raw timestamp (absent or 0) yields a
null creation time; otherwise the conversion oracle decides (null again on
conversion failure). -/
def extract_create_time (toLocal : Int → Option Int) (ts : Option Int) :
    Option Int :=
  match ts with
  | some t => if t = 0 then none else toLocal t
  | none => none

/-- Lines 36-67 of ophelia.py: the body of `get_tiktok_data` after short-link
resolution.  `client` stands for `api.video(url=...).info()` (returning the
metadata mapping or raising), `toLocal` for the
`datetime.fromtimestamp`/`utc_to_local` conversion (`none` on failure, which
the code logs and turns into a null creation time). -/
def classify_and_fetch (client : List Char → Except (List Char) VideoData)
    (toLocal : Int → Option Int) (u : Url) : FetchResult :=
  if is_tiktok_content_url u = false then
    .error notContentMsg
  else
    match client (replaceAll photoSeg videoSeg u.raw) with
    | .error m => .error m
    | .ok d =>
        .success (extract_views d.stats)
          (extract_create_time toLocal d.createTime)
          (extract_post_id d.id) d.hasImagePost

/-- Lines 75-87 of ophelia.py: `resolve_short_url`.  The HEAD request with
redirects is an oracle outcome: `some r` is the response URL, `none` models
any raised exception, in which case the original URL is returned. -/
def resolve_short_url (u : Url) (outcome : Option Url) : Url :=
  match outcome with
  | some r => r
  | none => u

/-- Lines 29-69 of ophelia.py: `get_tiktok_data`.  A URL whose raw text
contains `vt.tiktok.com` is first passed through `resolve_short_url`. -/
def get_tiktok_data (client : List Char → Except (List Char) VideoData)
    (resolveOutcome : Option Url) (toLocal : Int → Option Int)
    (u : Url) : FetchResult :=
  let u1 := if isSub vtHost u.raw then resolve_short_url u resolveOutcome else u
  classify_and_fetch client toLocal u1

/-- One entry of the `results` list built by `process_urls`:
`{'status': 'duplicate'}`, `{'status': 'error', 'message': m}`, or the
success dict (whose `post_id` is non-null there, since null ids were turned
into errors). -/
inductive RowResult where
  | dup
  | err (message : List Char)
  | ok (views : Nat) (createTime : Option Int) (postId : List Char)
      (isPhoto : Bool)
deriving DecidableEq

def noPostIdMsg : List Char := "No post ID found".data

/-- Lines 94-112 of ophelia.py: the body of the `process_urls` loop for one
URL, threading the `seen_ids` set (modelled as a list with membership). -/
def process_step (fetch : Url → FetchResult) (seen : List (List Char))
    (u : Url) : RowResult × List (List Char) :=
  match fetch u with
  | .error m => (.err m, seen)
  | .success v ct pid ph =>
      match pid with
      | none => (.err noPostIdMsg, seen)
      | some idv =>
          if idv ∈ seen then (.dup, seen)
          else (.ok v ct idv ph, idv :: seen)

/-- Lines 89-114 of ophelia.py: `process_urls`, returning the results list
and the final `seen_ids`. -/
def process_urls (fetch : Url → FetchResult) :
    List Url → List (List Char) → List RowResult × List (List Char)
  | [], seen => ([], seen)
  | u :: us, seen =>
      let p := process_step fetch seen u
      let q := process_urls fetch us p.2
      (p.1 :: q.1, q.2)

/-- One row of the DataFrame as the update loop sees it: the status column
(position 9, already normalised to a string by line 157) and the result
column (position 10). -/
structure DfRow where
  status : List Char
  views : Option Nat
deriving DecidableEq, Repr

def defaultDfRow : DfRow := ⟨[], none⟩

def dupStatus : List Char := "Double submission".data

def notContentStatus : List Char := "Not a content submission".data

def outOfDateStatus : List Char := "Out of date submission".data

def missingTimeStatus : List Char := "Missing creation time".data

def profileLinkMsg : List Char := "Profile link".data

/-- Lines 197-225 of ophelia.py: the body of the result-update loop for one
row, given the configured date window `[dstart, dend]`.  Duplicates are
handled first, then errors (splitting on the message text), then successful
results against the window.  A success dict's `create_time` is a datetime or
`None`; datetimes are always truthy, so `if create_time:` is `Option.isSome`. -/
def apply_result (dstart dend : Int) (row : DfRow) (res : RowResult) : DfRow :=
  match res with
  | .dup => { row with status := dupStatus }
  | .err m =>
      if isSub notContentMsg m || isSub profileLinkMsg m then
        { row with status := notContentStatus }
      else
        { row with status := "Error: ".data ++ m }
  | .ok v ct _ ph =>
      match ct with
      | some t =>
          if dstart ≤ t ∧ t ≤ dend then
            { row with views := some v, status := if ph then row.status else [] }
          else
            { row with status := outOfDateStatus }
      | none => { row with status := missingTimeStatus }

/-- A cell fill colour as openpyxl exposes it: either a literal rgb string
(`cell_color.rgb` is a `str`) or an indexed/theme colour, of which the code
only inspects `cell_color.index`. -/
inductive CellColor where
  | rgbStr (s : List Char)
  | indexed (i : Nat)
deriving DecidableEq, Repr

/-- Lines 130-134 of ophelia.py: the red test — for a string rgb, compare the
last six characters, lower-cased, with `ff0000`; otherwise compare the colour
index with 2. -/
def is_red_color : CellColor → Bool
  | .rgbStr s => (lastChars 6 s).map Char.toLower == "ff0000".data
  | .indexed i => i == 2

/-- One data row of the input spreadsheet (header row excluded): the URL cell
at position 8 (with its parse, `none` for a blank/NaN cell), the status cell
at position 9 (`none` for blank), the result cell at position 10, and the
per-column fills. -/
structure RowIn where
  url : Option Url
  status : Option (List Char)
  views : Option Nat
  fills : List (Option CellColor)
deriving DecidableEq

def defaultRowIn : RowIn := ⟨none, none, none, []⟩

/-- One data row of the output spreadsheet after the rewrite and the
highlight pass. -/
structure RowOut where
  url : Option Url
  status : List Char
  views : Option Nat
  fills : List (Option CellColor)
deriving DecidableEq

def defaultRowOut : RowOut := ⟨none, [], none, []⟩

/-- Lines 124-139 of ophelia.py: a row is marked skipped when the cell at
column position 5 (`excel_row[5]`) carries a red fill. -/
def rowSkipped (r : RowIn) : Bool :=
  match r.fills.getD 5 none with
  | some c => is_red_color c
  | none => false

/-- Indices (0-based, matching `excel_row[0].row - 2`) of the rows found red
in the pre-scan, accumulating from index `k`. -/
def skippedIndicesAux : Nat → List RowIn → List Nat
  | _, [] => []
  | k, r :: rs =>
      if rowSkipped r then k :: skippedIndicesAux (k + 1) rs
      else skippedIndicesAux (k + 1) rs

def skippedIndices (rows : List RowIn) : List Nat :=
  skippedIndicesAux 0 rows

/-- Lines 159-170 of ophelia.py: the `valid_entries` loop from index `k` —
skip flagged rows, blank URL cells, empty-after-strip URLs and non-TikTok
URLs; keep `(index, stripped url)` pairs. -/
def validEntriesAux (skipped : List Nat) : Nat → List RowIn → List (Nat × Url)
  | _, [] => []
  | k, r :: rs =>
      let rest := validEntriesAux skipped (k + 1) rs
      if k ∈ skipped then rest
      else
        match r.url with
        | none => rest
        | some u =>
            let s := stripChars u.raw
            if s.isEmpty then rest
            else
              let u2 : Url := { u with raw := s }
              if is_tiktok_url u2 then (k, u2) :: rest else rest

def validEntries (rows : List RowIn) (skipped : List Nat) : List (Nat × Url) :=
  validEntriesAux skipped 0 rows

/-- Lines 195-225 of ophelia.py: run the update loop over the
`(row index, result)` pairs, mutating the DataFrame in place. -/
def updateAll (dstart dend : Int) :
    List DfRow → List (Nat × RowResult) → List DfRow
  | df, [] => df
  | df, p :: ps =>
      updateAll dstart dend
        (df.set p.1 (apply_result dstart dend (df.getD p.1 defaultDfRow) p.2))
        ps

/-- Line 237 of ophelia.py: the status substrings that trigger highlighting. -/
def triggerSubstrings : List (List Char) :=
  [dupStatus, "Out of date".data, "Error".data, notContentStatus]

def containsTrigger (s : List Char) : Bool :=
  triggerSubstrings.any (fun t => isSub t s)

/-- The fill written by line 233: `PatternFill(start_color="FF0000", ...)`,
which openpyxl stores as the 8-character argb string `00FF0000`. -/
def redFillWritten : CellColor := .rgbStr "00FF0000".data

/-- Lines 228-239 of ophelia.py: `df.to_excel` rewrites the sheet with NO
fills, then rows whose status is non-empty and contains a trigger substring
get red fill on columns 0-8.  The sheet has 11 columns. -/
def highlightFills (s : List Char) : List (Option CellColor) :=
  (List.range 11).map fun c =>
    if (s.isEmpty = false ∧ containsTrigger s = true) ∧ c < 9 then
      some redFillWritten
    else none

/-- Written form of one row: cell values from the updated DataFrame, fills
from the highlight pass alone. -/
def writeRow (r : RowIn) (d : DfRow) : RowOut :=
  { url := r.url, status := d.status, views := d.views,
    fills := highlightFills d.status }

def writeAll : List RowIn → List DfRow → List RowOut
  | [], _ => []
  | _ :: _, [] => []
  | r :: rs, d :: ds => writeRow r d :: writeAll rs ds

/-- Lines 116-243 of ophelia.py: the whole `main` run over the data rows of
`urls.xlsx`, parameterised by the fetch oracle and the date window.  Returns
`none` when no valid URLs were found (lines 178-180: the run returns before
any write, leaving the file untouched); otherwise the written rows. -/
def mainRun (fetch : Url → FetchResult) (dstart dend : Int)
    (rows : List RowIn) : Option (List RowOut) :=
  let skipped := skippedIndices rows
  let entries := validEntries rows skipped
  if entries.isEmpty then none
  else
    let results := (process_urls fetch (entries.map Prod.snd) []).1
    let df0 := rows.map fun r => DfRow.mk (r.status.getD []) r.views
    let df1 := updateAll dstart dend df0 ((entries.map Prod.fst).zip results)
    some (writeAll rows df1)

/-! Concrete fixtures used by witnesses and counterexamples. -/

/-- A normal TikTok video URL together with its parse. -/
def wVideoUrl : Url :=
  ⟨"https://www.tiktok.com/@u/video/123".data,
   "www.tiktok.com".data, "/@u/video/123".data⟩

/-- A bare TikTok profile URL (no content segment). -/
def wProfileUrl : Url :=
  ⟨"https://www.tiktok.com/@user".data,
   "www.tiktok.com".data, "/@user".data⟩

/-- A data row flagged skipped by a red (indexed form) fill at column 5,
whose status text matches no highlight trigger. -/
def wSkippedRow : RowIn :=
  { url := none, status := some "done".data, views := some 5,
    fills := [none, none, none, none, none, some (.indexed 2),
              none, none, none, none, none] }

/-- A plain unflagged data row holding a TikTok video URL. -/
def wPlainRow : RowIn :=
  { url := some wVideoUrl, status := none, views := none,
    fills := List.replicate 11 none }

def wRows : List RowIn := [wSkippedRow, wPlainRow]

/-- A fetch oracle that fails with a generic message on every URL. -/
def wErrFetch : Url → FetchResult := fun _ => .error "boom".data

/-- A client oracle that fails with a generic message on every URL. -/
def wErrClient : List Char → Except (List Char) VideoData :=
  fun _ => .error "boom".data

/-- A timestamp-conversion oracle that always fails. -/
def wNoneLocal : Int → Option Int := fun _ => none

/-- Metadata with a null raw id and 3 plays. -/
def wNoIdData : VideoData :=
  { hasImagePost := false, stats := ⟨some 3, none⟩, id := none,
    createTime := none }

/-- A client oracle that returns `wNoIdData` for every URL. -/
def wNoIdClient : List Char → Except (List Char) VideoData :=
  fun _ => .ok wNoIdData

/-- A fetch oracle that returns the same post id 123 for every URL. -/
def wDupFetch : Url → FetchResult :=
  fun _ => .success 5 (some 1) (some "123".data) false

/-- A data row whose status-column cell (position 9) is red in literal hex
form, with no fill at position 5. -/
def c4RedAtStatusRow : RowIn :=
  { url := none, status := none, views := none,
    fills := [none, none, none, none, none, none, none, none, none,
              some (.rgbStr "FFFF0000".data), none] }

/-! Claim C3: view-count extraction. -/

/-- C3 counterexample: at `stats = {playCount: 0, viewCount: 7}` the code
returns 7 (Python `or` skips the falsy present 0), while the claim's
first-PRESENT-field reading returns 0. -/
theorem c3_counterexample :
    extract_views ⟨some 0, some 7⟩ ≠ extract_views_claim ⟨some 0, some 7⟩ := by
  decide

/-- C3 (amended): the extracted view count is the first of `playCount`,
`viewCount` that is present with a NONZERO value, and 0 when neither is; a
present field whose value is 0 is skipped, not used. -/
theorem c3_views_first_truthy (s : Stats) :
    (∀ v, s.playCount = some v → v ≠ 0 → extract_views s = v) ∧
    ((s.playCount = none ∨ s.playCount = some 0) →
      ∀ w, s.viewCount = some w → w ≠ 0 → extract_views s = w) ∧
    ((s.playCount = none ∨ s.playCount = some 0) →
      (s.viewCount = none ∨ s.viewCount = some 0) → extract_views s = 0) := by
  obtain ⟨p, q⟩ := s
  refine ⟨?_, ?_, ?_⟩
  · rintro v rfl hv
    simp [extract_views, truthyOr, hv]
  · rintro (rfl | rfl) w rfl hw <;> simp [extract_views, truthyOr, hw]
  · rintro (rfl | rfl) (rfl | rfl) <;> simp [extract_views, truthyOr]

/-- C3 witness: instantiating the amended theorem at
`{playCount: 0, viewCount: 7}` gives 7. -/
theorem c3_views_first_truthy_witness : extract_views ⟨some 0, some 7⟩ = 7 :=
  (c3_views_first_truthy ⟨some 0, some 7⟩).2.1 (Or.inr rfl) 7 rfl (by decide)

/-! Claim C5: successful in-range results. -/

/-- C5: a successful result whose creation time lies in the closed window
always writes the view count; the status is cleared to the empty string for
non-photo posts and left unchanged for photo posts. -/
theorem c5_in_range_success (dstart dend : Int) (row : DfRow) (v : Nat)
    (t : Int) (pid : List Char) (ph : Bool)
    (h1 : dstart ≤ t) (h2 : t ≤ dend) :
    apply_result dstart dend row (.ok v (some t) pid ph) =
      { row with views := some v, status := if ph then row.status else [] } := by
  simp [apply_result, h1, h2]

/-- C5 witness: a concrete in-range non-photo success clears the status and
writes 500; a concrete in-range photo success keeps the status and writes
500. -/
theorem c5_in_range_success_witness :
    apply_result 0 10 ⟨"old".data, none⟩ (.ok 500 (some 5) "123".data false) =
      ⟨[], some 500⟩ ∧
    apply_result 0 10 ⟨"old".data, none⟩ (.ok 500 (some 5) "123".data true) =
      ⟨"old".data, some 500⟩ := by
  constructor
  · have h := c5_in_range_success 0 10 ⟨"old".data, none⟩ 500 5 "123".data
      false (by decide) (by decide)
    simpa using h
  · have h := c5_in_range_success 0 10 ⟨"old".data, none⟩ 500 5 "123".data
      true (by decide) (by decide)
    simpa using h

/-! Claim C6: successful out-of-range results. -/

/-- C6: a successful result with a non-null creation time strictly before
the window start or strictly after its end gets status
"Out of date submission" and its result column is never written. -/
theorem c6_out_of_range (dstart dend : Int) (row : DfRow) (v : Nat) (t : Int)
    (pid : List Char) (ph : Bool) (h : t < dstart ∨ dend < t) :
    apply_result dstart dend row (.ok v (some t) pid ph) =
      { row with status := outOfDateStatus } ∧
    (apply_result dstart dend row (.ok v (some t) pid ph)).views = row.views := by
  have hc : ¬ (dstart ≤ t ∧ t ≤ dend) := by omega
  refine ⟨?_, ?_⟩ <;> simp [apply_result, hc]

/-- C6 witness: timestamp 11 against window [0, 10] yields the out-of-date
status and leaves the previous result value 3 in place. -/
theorem c6_out_of_range_witness :
    apply_result 0 10 ⟨[], some 3⟩ (.ok 5 (some 11) "1".data false) =
      ⟨outOfDateStatus, some 3⟩ ∧
    (apply_result 0 10 ⟨[], some 3⟩ (.ok 5 (some 11) "1".data false)).views =
      some 3 := by
  have h := c6_out_of_range 0 10 ⟨[], some 3⟩ 5 11 "1".data false
    (Or.inr (by decide))
  exact ⟨by simpa using h.1, h.2⟩

/-! Claim C7: the content classifier and the non-content status. -/

/-- C7: `is_tiktok_content_url` is true exactly when the host ends with the
platform domain and the lower-cased path contains a content-type segment or
both a user-handle marker and a content segment; a URL it rejects makes
`get_tiktok_data` return the "Not a content URL" error, which the processing
loop passes through and the update loop turns into status
"Not a content submission". -/
theorem c7_content_classifier (u : Url) :
    (is_tiktok_content_url u = true ↔
      (tiktokDomain.isSuffixOf u.netloc = true ∧
        ((isSub "/video/".data (u.path.map Char.toLower) = true ∨
          isSub "/photo/".data (u.path.map Char.toLower) = true) ∨
         (isSub "@".data (u.path.map Char.toLower) = true ∧
           (isSub "/video".data (u.path.map Char.toLower) = true ∨
            isSub "/photo".data (u.path.map Char.toLower) = true))))) ∧
    (∀ client toLocal ro, isSub vtHost u.raw = false →
        is_tiktok_content_url u = false →
        get_tiktok_data client ro toLocal u = .error notContentMsg) ∧
    (∀ fetch seen (u2 : Url) m, fetch u2 = .error m →
        process_step fetch seen u2 = (.err m, seen)) ∧
    (∀ dstart dend row,
        apply_result dstart dend row (.err notContentMsg) =
          { row with status := notContentStatus }) := by
  refine ⟨?_, ?_, ?_, ?_⟩
  · by_cases hd : tiktokDomain.isSuffixOf u.netloc <;>
      simp [is_tiktok_content_url, hd]
  · intro client toLocal ro hvt hc
    simp [get_tiktok_data, classify_and_fetch, hvt, hc]
  · intro fetch seen u2 m hm
    simp [process_step, hm]
  · intro dstart dend row
    have hcond : (isSub notContentMsg notContentMsg
        || isSub profileLinkMsg notContentMsg) = true := by decide
    simp [apply_result, hcond]

/-- C7 witness: the bare profile URL is rejected end to end — the fetch
yields the "Not a content URL" error and the update loop writes
"Not a content submission" without touching the result value. -/
theorem c7_content_classifier_witness :
    is_tiktok_content_url wProfileUrl = false ∧
    get_tiktok_data wErrClient none wNoneLocal wProfileUrl =
      .error notContentMsg ∧
    apply_result 0 10 ⟨[], some 3⟩ (.err notContentMsg) =
      ⟨notContentStatus, some 3⟩ := by
  refine ⟨by decide, ?_, ?_⟩
  · exact (c7_content_classifier wProfileUrl).2.1 wErrClient wNoneLocal none
      (by decide) (by decide)
  · have h := (c7_content_classifier wProfileUrl).2.2.2 0 10 ⟨[], some 3⟩
    simpa using h

/-! Claim C8: short-link resolution failure degrades gracefully. -/

/-- C8: when HEAD-request resolution fails (the `none` outcome, covering any
raised exception), `resolve_short_url` returns the original URL,
`get_tiktok_data` proceeds exactly as classification of that original URL,
and any error it then reports comes either from the content check on the
original URL or from the client itself — never from the resolution failure. -/
theorem c8_resolution_failure (client : List Char → Except (List Char) VideoData)
    (toLocal : Int → Option Int) (u : Url) :
    resolve_short_url u none = u ∧
    get_tiktok_data client none toLocal u = classify_and_fetch client toLocal u ∧
    (∀ m, get_tiktok_data client none toLocal u = .error m →
      (is_tiktok_content_url u = false ∧ m = notContentMsg) ∨
      client (replaceAll photoSeg videoSeg u.raw) = .error m) := by
  have h2 : get_tiktok_data client none toLocal u =
      classify_and_fetch client toLocal u := by
    by_cases hv : isSub vtHost u.raw <;>
      simp [get_tiktok_data, resolve_short_url, hv]
  refine ⟨rfl, h2, ?_⟩
  intro m hm
  rw [h2] at hm
  by_cases hc : is_tiktok_content_url u
  · right
    rcases hcl : client (replaceAll photoSeg videoSeg u.raw) with m2 | d
    · simp [classify_and_fetch, hc, hcl] at hm
      rw [hm]
    · simp [classify_and_fetch, hc, hcl] at hm
  · left
    simp [classify_and_fetch, hc] at hm
    exact ⟨by simpa using hc, hm.symm⟩

/-- C8 witness: a failed resolution on a concrete URL leaves it unchanged,
and the subsequent error is the client's own. -/
theorem c8_resolution_failure_witness :
    resolve_short_url wVideoUrl none = wVideoUrl ∧
    ((is_tiktok_content_url wVideoUrl = false ∧ "boom".data = notContentMsg) ∨
      wErrClient (replaceAll photoSeg videoSeg wVideoUrl.raw) =
        Except.error "boom".data) :=
  ⟨(c8_resolution_failure wErrClient wNoneLocal wVideoUrl).1,
   (c8_resolution_failure wErrClient wNoneLocal wVideoUrl).2.2 "boom".data
     (by decide)⟩

/-! Claim C10: successful fetches with a null or empty post identifier. -/

/-- C10: a fetch that reaches the metadata but finds a null or empty raw id
yields a success dict with a null post identifier; the processing loop turns
that into the "No post ID found" error without touching the seen-id set, and
the update loop writes status "Error: No post ID found" without touching the
result column. -/
theorem c10_no_post_id :
    (∀ (client : List Char → Except (List Char) VideoData) toLocal ro
        (u : Url) (d : VideoData),
        isSub vtHost u.raw = false →
        is_tiktok_content_url u = true →
        client (replaceAll photoSeg videoSeg u.raw) = Except.ok d →
        (d.id = none ∨ d.id = some []) →
        get_tiktok_data client ro toLocal u =
          .success (extract_views d.stats)
            (extract_create_time toLocal d.createTime) none d.hasImagePost) ∧
    (∀ fetch seen (u : Url) v ct ph,
        fetch u = .success v ct none ph →
        process_step fetch seen u = (.err noPostIdMsg, seen)) ∧
    (∀ dstart dend row,
        apply_result dstart dend row (.err noPostIdMsg) =
          { row with status := "Error: ".data ++ noPostIdMsg } ∧
        (apply_result dstart dend row (.err noPostIdMsg)).views = row.views) := by
  refine ⟨?_, ?_, ?_⟩
  · intro client toLocal ro u d hvt hc hcl hid
    rcases hid with h | h <;>
      simp [get_tiktok_data, classify_and_fetch, extract_post_id, hvt, hc, hcl, h]
  · intro fetch seen u v ct ph hf
    simp [process_step, hf]
  · intro dstart dend row
    have hcond : (isSub notContentMsg noPostIdMsg
        || isSub profileLinkMsg noPostIdMsg) = false := by decide
    refine ⟨?_, ?_⟩ <;> simp [apply_result, hcond]

/-- C10 witness: a concrete metadata mapping with a null id gives the
"No post ID found" error chain on a concrete URL. -/
theorem c10_no_post_id_witness :
    get_tiktok_data wNoIdClient none wNoneLocal wVideoUrl =
      .success 3 none none false ∧
    process_step (fun _ => .success 3 none none false) [] wVideoUrl =
      (.err noPostIdMsg, []) ∧
    apply_result 0 10 ⟨[], some 9⟩ (.err noPostIdMsg) =
      ⟨"Error: No post ID found".data, some 9⟩ := by
  refine ⟨?_, ?_, ?_⟩
  · have h := c10_no_post_id.1 wNoIdClient wNoneLocal none wVideoUrl wNoIdData
      (by decide) (by decide) rfl (Or.inl rfl)
    rw [h]; decide
  · exact c10_no_post_id.2.1 (fun _ => .success 3 none none false) [] wVideoUrl
      3 none false rfl
  · have h := (c10_no_post_id.2.2 0 10 ⟨[], some 9⟩).1
    simpa using h

/-! Claim C9: one result per URL, in input order. -/

/-- C9: `process_urls` yields exactly one result per input URL, and the i-th
result is the step outcome for the i-th URL against the seen-id set
accumulated over the first i URLs — no URL is dropped, reordered or
processed twice. -/
theorem c9_one_result_per_url (fetch : Url → FetchResult) (urls : List Url)
    (seen : List (List Char)) :
    (process_urls fetch urls seen).1.length = urls.length ∧
    ∀ i, i < urls.length →
      (process_urls fetch urls seen).1.getD i (.err []) =
        (process_step fetch (process_urls fetch (urls.take i) seen).2
          (urls.getD i defaultUrl)).1 := by
  induction urls generalizing seen with
  | nil =>
      refine ⟨rfl, ?_⟩
      intro i hi
      simp at hi
  | cons u us ih =>
      refine ⟨?_, ?_⟩
      · simpa [process_urls] using (ih (process_step fetch seen u).2).1
      · intro i hi
        cases i with
        | zero => simp [process_urls]
        | succ k =>
            have hk : k < us.length := by simpa using hi
            have h2 := (ih (process_step fetch seen u).2).2 k hk
            simpa [process_urls] using h2

/-- C9 witness: the characterisation instantiated on a concrete two-URL run. -/
theorem c9_one_result_per_url_witness :
    (process_urls wErrFetch [wVideoUrl, wProfileUrl] []).1.length = 2 ∧
    (process_urls wErrFetch [wVideoUrl, wProfileUrl] []).1.getD 1 (.err []) =
      (process_step wErrFetch
        (process_urls wErrFetch ([wVideoUrl, wProfileUrl].take 1) []).2
        ([wVideoUrl, wProfileUrl].getD 1 defaultUrl)).1 :=
  ⟨(c9_one_result_per_url wErrFetch [wVideoUrl, wProfileUrl] []).1,
   (c9_one_result_per_url wErrFetch [wVideoUrl, wProfileUrl] []).2 1
     (by decide)⟩

/-! Claim C1: duplicate post identifiers. -/

/-- Membership in the seen-id set survives one processing step. -/
lemma process_step_seen_mono (fetch : Url → FetchResult)
    (seen : List (List Char)) (u : Url) (a : List Char) (ha : a ∈ seen) :
    a ∈ (process_step fetch seen u).2 := by
  rcases hf : fetch u with m | ⟨v, ct, pid, ph⟩
  · simpa [process_step, hf] using ha
  · rcases pid with _ | idv
    · simpa [process_step, hf] using ha
    · by_cases h : idv ∈ seen
      · simpa [process_step, hf, h] using ha
      · simp [process_step, hf, h]
        exact Or.inr ha

/-- Once a post id is in the seen set, any later URL fetching that id is
recorded as a duplicate. -/
lemma process_urls_dup_of_seen (fetch : Url → FetchResult) (p : List Char) :
    ∀ (us : List Url) (seen : List (List Char)) (k : Nat),
      p ∈ seen → k < us.length →
      (∃ v ct ph, fetch (us.getD k defaultUrl) = .success v ct (some p) ph) →
      (process_urls fetch us seen).1.getD k (.err []) = .dup := by
  intro us
  induction us with
  | nil =>
      intro seen k _ hk
      simp at hk
  | cons u tail ih =>
      intro seen k hp hk hf
      cases k with
      | zero =>
          obtain ⟨v, ct, ph, hf⟩ := hf
          simp only [List.getD_cons_zero] at hf
          simp [process_urls, process_step, hf, hp]
      | succ k2 =>
          have h2 := ih (process_step fetch seen u).2 k2
            (process_step_seen_mono fetch seen u p hp)
            (by simpa using hk)
            (by simpa [List.getD_cons_succ] using hf)
          simpa [process_urls] using h2

/-- Two rows with the same resolved post identifier: the later one is
recorded as a duplicate, whatever the seen set started as. -/
lemma process_urls_dup_pair (fetch : Url → FetchResult) (p : List Char) :
    ∀ (us : List Url) (seen : List (List Char)) (i j : Nat),
      i < j → j < us.length →
      (∃ v ct ph, fetch (us.getD i defaultUrl) = .success v ct (some p) ph) →
      (∃ v ct ph, fetch (us.getD j defaultUrl) = .success v ct (some p) ph) →
      (process_urls fetch us seen).1.getD j (.err []) = .dup := by
  intro us
  induction us with
  | nil =>
      intro seen i j _ hj
      simp at hj
  | cons u tail ih =>
      intro seen i j hij hj hfi hfj
      obtain ⟨j2, rfl⟩ : ∃ j2, j = j2 + 1 := ⟨j - 1, by omega⟩
      cases i with
      | zero =>
          obtain ⟨v, ct, ph, hfi⟩ := hfi
          simp only [List.getD_cons_zero] at hfi
          have hp : p ∈ (process_step fetch seen u).2 := by
            by_cases h : p ∈ seen
            · exact process_step_seen_mono fetch seen u p h
            · simp [process_step, hfi, h]
          have h2 := process_urls_dup_of_seen fetch p tail
            (process_step fetch seen u).2 j2 hp (by simpa using hj)
            (by simpa [List.getD_cons_succ] using hfj)
          simpa [process_urls] using h2
      | succ i2 =>
          have h2 := ih (process_step fetch seen u).2 i2 j2 (by omega)
            (by simpa using hj)
            (by simpa [List.getD_cons_succ] using hfi)
            (by simpa [List.getD_cons_succ] using hfj)
          simpa [process_urls] using h2

/-- C1: when two rows' fetches resolve to the same post identifier, the
second row in processing order is recorded as a duplicate, and the update
loop — which handles duplicates before any error classification — gives it
status "Double submission" and leaves its result value untouched. -/
theorem c1_double_submission (fetch : Url → FetchResult) (urls : List Url)
    (i j : Nat) (p : List Char) (vi vj : Nat) (cti ctj : Option Int)
    (phi phj : Bool) (hij : i < j) (hj : j < urls.length)
    (hfi : fetch (urls.getD i defaultUrl) = .success vi cti (some p) phi)
    (hfj : fetch (urls.getD j defaultUrl) = .success vj ctj (some p) phj) :
    (process_urls fetch urls []).1.getD j (.err []) = .dup ∧
    ∀ dstart dend row,
      apply_result dstart dend row RowResult.dup = { row with status := dupStatus } ∧
      (apply_result dstart dend row RowResult.dup).views = row.views := by
  refine ⟨?_, ?_⟩
  · exact process_urls_dup_pair fetch p urls [] i j hij hj
      ⟨vi, cti, phi, hfi⟩ ⟨vj, ctj, phj, hfj⟩
  · intro dstart dend row
    exact ⟨rfl, rfl⟩

/-- C1 witness: two URLs resolving to post id 123 — the second result is the
duplicate marker, and applying it yields "Double submission" with the prior
result value 7 intact. -/
theorem c1_double_submission_witness :
    (process_urls wDupFetch [wVideoUrl, wVideoUrl] []).1.getD 1 (.err []) =
      RowResult.dup ∧
    apply_result 0 10 ⟨[], some 7⟩ RowResult.dup = ⟨dupStatus, some 7⟩ := by
  have h := c1_double_submission wDupFetch [wVideoUrl, wVideoUrl] 0 1
    "123".data 5 5 (some 1) (some 1) false false (by decide) (by decide)
    rfl rfl
  exact ⟨h.1, by simpa using (h.2 0 10 ⟨[], some 7⟩).1⟩

/-! Helper lemmas for the worked-sheet claims C2 and C4. -/

/-- Characterisation of the red pre-scan: an index is collected from offset
`k` exactly when it points at a row whose skip test holds. -/
lemma mem_skippedIndicesAux_iff (rs : List RowIn) :
    ∀ (k j : Nat), j ∈ skippedIndicesAux k rs ↔
      ∃ t, t < rs.length ∧ j = k + t ∧
        rowSkipped (rs.getD t defaultRowIn) = true := by
  induction rs with
  | nil =>
      intro k j
      simp [skippedIndicesAux]
  | cons r tail ih =>
      intro k j
      by_cases hr : rowSkipped r
      · simp only [skippedIndicesAux, hr, if_pos]
        constructor
        · intro h
          rcases List.mem_cons.mp h with rfl | h2
          · exact ⟨0, by simp, by omega, by simpa using hr⟩
          · obtain ⟨t, ht, hj, hs⟩ := (ih (k + 1) j).mp h2
            exact ⟨t + 1, by simpa using ht, by omega,
              by simpa [List.getD_cons_succ] using hs⟩
        · rintro ⟨t, ht, rfl, hs⟩
          cases t with
          | zero =>
              simp
          | succ t2 =>
              refine List.mem_cons_of_mem _ ?_
              refine (ih (k + 1) (k + t2 + 1)).mpr ?_
              exact ⟨t2, by simpa using ht, by omega,
                by simpa [List.getD_cons_succ] using hs⟩
      · simp only [skippedIndicesAux, hr, if_neg, Bool.false_eq_true,
          not_false_iff]
        constructor
        · intro h
          obtain ⟨t, ht, rfl, hs⟩ := (ih (k + 1) _).mp h
          exact ⟨t + 1, by simpa using ht, by omega,
            by simpa [List.getD_cons_succ] using hs⟩
        · rintro ⟨t, ht, rfl, hs⟩
          cases t with
          | zero =>
              simp only [List.getD_cons_zero] at hs
              exact absurd hs (by simpa using hr)
          | succ t2 =>
              refine (ih (k + 1) (k + (t2 + 1))).mpr ?_
              exact ⟨t2, by simpa using ht, by omega,
                by simpa [List.getD_cons_succ] using hs⟩

/-- A row flagged skipped contributes its index to the pre-scan list. -/
lemma mem_skippedIndices (rows : List RowIn) (i : Nat) (hi : i < rows.length)
    (hs : rowSkipped (rows.getD i defaultRowIn) = true) :
    i ∈ skippedIndices rows := by
  refine (mem_skippedIndicesAux_iff rows 0 i).mpr ⟨i, hi, by omega, hs⟩

/-- The skip test holds exactly when the column-5 cell carries a fill that
passes the red test. -/
lemma rowSkipped_iff (r : RowIn) :
    rowSkipped r = true ↔
      ∃ c, r.fills.getD 5 none = some c ∧ is_red_color c = true := by
  unfold rowSkipped
  rcases h : r.fills.getD 5 none with _ | c <;> simp [h]

/-- Every entry the `valid_entries` loop keeps has an index outside the skip
list. -/
lemma validEntriesAux_not_skipped (skipped : List Nat) (rs : List RowIn) :
    ∀ (k : Nat) (e : Nat × Url), e ∈ validEntriesAux skipped k rs →
      e.1 ∉ skipped := by
  induction rs with
  | nil =>
      intro k e h
      simp [validEntriesAux] at h
  | cons r tail ih =>
      intro k e h
      by_cases hk : k ∈ skipped
      · exact ih (k + 1) e (by simpa [validEntriesAux, hk] using h)
      · rcases hu : r.url with _ | u0
        · exact ih (k + 1) e (by simpa [validEntriesAux, hk, hu] using h)
        · by_cases hs : (stripChars u0.raw).isEmpty
          · exact ih (k + 1) e
              (by simpa [validEntriesAux, hk, hu, hs] using h)
          · by_cases ht : is_tiktok_url { u0 with raw := stripChars u0.raw }
            · have h2 : e = (k, { u0 with raw := stripChars u0.raw }) ∨
                  e ∈ validEntriesAux skipped (k + 1) tail := by
                have h3 : e ∈ (k, { u0 with raw := stripChars u0.raw }) ::
                    validEntriesAux skipped (k + 1) tail := by
                  simpa [validEntriesAux, hk, hu, hs, ht] using h
                exact List.mem_cons.mp h3
              rcases h2 with rfl | h2
              · exact hk
              · exact ih (k + 1) e h2
            · exact ih (k + 1) e
                (by simpa [validEntriesAux, hk, hu, hs, ht] using h)

/-- Setting one position leaves every other position's `getD` unchanged. -/
lemma getD_set_ne {α : Type} (l : List α) (a j : Nat) (x d : α) (h : a ≠ j) :
    (l.set a x).getD j d = l.getD j d := by
  induction l generalizing a j with
  | nil => simp
  | cons b t ih =>
      cases a with
      | zero =>
          cases j with
          | zero => omega
          | succ j2 => simp [List.set]
      | succ a2 =>
          cases j with
          | zero => simp [List.set]
          | succ j2 =>
              simpa [List.set, List.getD_cons_succ] using ih a2 j2 (by omega)

/-- The update loop never touches a row index that appears in none of its
`(index, result)` pairs. -/
lemma updateAll_getD_not_mem (dstart dend : Int) :
    ∀ (ps : List (Nat × RowResult)) (df : List DfRow) (j : Nat),
      (∀ q ∈ ps, q.1 ≠ j) →
      (updateAll dstart dend df ps).getD j defaultDfRow =
        df.getD j defaultDfRow := by
  intro ps
  induction ps with
  | nil =>
      intro df j _
      rfl
  | cons q ps2 ih =>
      intro df j h
      have h1 : q.1 ≠ j := h q (by simp)
      have h2 := ih
        (df.set q.1 (apply_result dstart dend (df.getD q.1 defaultDfRow) q.2))
        j (fun r hr => h r (by simp [hr]))
      rw [updateAll, h2, getD_set_ne _ _ _ _ _ h1]

/-- The update loop preserves the DataFrame's length. -/
lemma updateAll_length (dstart dend : Int) :
    ∀ (ps : List (Nat × RowResult)) (df : List DfRow),
      (updateAll dstart dend df ps).length = df.length := by
  intro ps
  induction ps with
  | nil =>
      intro df
      rfl
  | cons q ps2 ih =>
      intro df
      rw [updateAll]
      simpa [List.length_set] using ih
        (df.set q.1 (apply_result dstart dend (df.getD q.1 defaultDfRow) q.2))

/-- Pointwise description of the written sheet. -/
lemma writeAll_getD (rs : List RowIn) :
    ∀ (ds : List DfRow) (i : Nat), i < rs.length → rs.length = ds.length →
      (writeAll rs ds).getD i defaultRowOut =
        writeRow (rs.getD i defaultRowIn) (ds.getD i defaultDfRow) := by
  induction rs with
  | nil =>
      intro ds i hi
      simp at hi
  | cons r tail ih =>
      intro ds i hi hlen
      cases ds with
      | nil => simp at hlen
      | cons d ds2 =>
          cases i with
          | zero => simp [writeAll]
          | succ i2 =>
              have h2 := ih ds2 i2 (by simpa using hi) (by simpa using hlen)
              simpa [writeAll, List.getD_cons_succ] using h2

/-- Pointwise description of the initial DataFrame (status normalised by
`fillna("").astype(str)`, result column as read). -/
lemma getD_dfInit (rows : List RowIn) :
    ∀ i, i < rows.length →
      ((rows.map fun r => DfRow.mk (r.status.getD []) r.views).getD i
          defaultDfRow) =
        DfRow.mk ((rows.getD i defaultRowIn).status.getD [])
          (rows.getD i defaultRowIn).views := by
  induction rows with
  | nil =>
      intro i hi
      simp at hi
  | cons r tail ih =>
      intro i hi
      cases i with
      | zero => simp
      | succ i2 =>
          simpa [List.getD_cons_succ] using ih i2 (by simpa using hi)

/-! Claim C2: skipped rows across a run. -/

/-- C2 counterexample: a run over a sheet whose first row is flagged skipped
(red, indexed form, at column 5) with status "done" does write the file,
leaves that row's status and value alone, but drops its red fill — the row is
not byte-for-byte unchanged, its highlighting differs. -/
theorem c2_counterexample :
    rowSkipped (wRows.getD 0 defaultRowIn) = true ∧
    (mainRun wErrFetch 0 0 wRows).isSome = true ∧
    (((mainRun wErrFetch 0 0 wRows).getD []).getD 0 defaultRowOut).fills ≠
      (wRows.getD 0 defaultRowIn).fills := by
  decide

/-- C2 (amended): a row flagged skipped on entry keeps its status text (up to
the blank-cell-to-empty-string normalisation of line 157) and its result
value, and the update loop never touches it; but its cell highlighting is NOT
preserved — the rewrite drops every fill and red is re-applied on columns 0-8
exactly when the row's status text is non-empty and contains a trigger
substring. -/
theorem c2_skipped_row_roundtrip (fetch : Url → FetchResult)
    (dstart dend : Int) (rows : List RowIn) (out : List RowOut) (i : Nat)
    (hrun : mainRun fetch dstart dend rows = some out)
    (hi : i < rows.length)
    (hskip : rowSkipped (rows.getD i defaultRowIn) = true) :
    out.getD i defaultRowOut =
      { url := (rows.getD i defaultRowIn).url,
        status := (rows.getD i defaultRowIn).status.getD [],
        views := (rows.getD i defaultRowIn).views,
        fills := highlightFills ((rows.getD i defaultRowIn).status.getD []) } := by
  by_cases he : (validEntries rows (skippedIndices rows)).isEmpty
  · simp [mainRun, he] at hrun
  · have hout : out = writeAll rows (updateAll dstart dend
        (rows.map fun r => DfRow.mk (r.status.getD []) r.views)
        (((validEntries rows (skippedIndices rows)).map Prod.fst).zip
          (process_urls fetch
            ((validEntries rows (skippedIndices rows)).map Prod.snd) []).1)) := by
      have h2 := hrun.symm
      simp [mainRun, he] at h2
      exact h2
    have hmem : i ∈ skippedIndices rows := mem_skippedIndices rows i hi hskip
    have hpairs : ∀ q ∈ ((validEntries rows (skippedIndices rows)).map
        Prod.fst).zip (process_urls fetch
          ((validEntries rows (skippedIndices rows)).map Prod.snd) []).1,
        q.1 ≠ i := by
      intro q hq hcontra
      have hq1 := (List.of_mem_zip hq).1
      obtain ⟨e, he2, he3⟩ := List.mem_map.mp hq1
      have h4 := validEntriesAux_not_skipped (skippedIndices rows) rows 0 e he2
      refine h4 ?_
      rw [he3, hcontra]
      exact hmem
    have hlen : rows.length = (updateAll dstart dend
        (rows.map fun r => DfRow.mk (r.status.getD []) r.views)
        (((validEntries rows (skippedIndices rows)).map Prod.fst).zip
          (process_urls fetch
            ((validEntries rows (skippedIndices rows)).map Prod.snd) []).1)).length := by
      rw [updateAll_length]
      simp
    rw [hout, writeAll_getD rows _ i hi hlen,
        updateAll_getD_not_mem dstart dend _ _ i hpairs,
        getD_dfInit rows i hi]
    rfl

/-- C2 witness: the amended statement instantiated on the concrete two-row
sheet — the skipped row keeps status "done" and value 5, with the recomputed
(empty) highlighting. -/
theorem c2_skipped_row_roundtrip_witness :
    ((mainRun wErrFetch 0 0 wRows).getD []).getD 0 defaultRowOut =
      { url := none, status := "done".data, views := some 5,
        fills := highlightFills "done".data } := by
  have h := c2_skipped_row_roundtrip wErrFetch 0 0 wRows
    ((mainRun wErrFetch 0 0 wRows).getD []) 0 (by decide) (by decide)
    (by decide)
  rw [h]
  decide

/-! Claim C4: which cell marks a row as skipped. -/

/-- C4 counterexample: a red fill on the status column (zero-based position
9) does NOT mark the row as skipped — the pre-scan reads position 5. -/
theorem c4_counterexample :
    is_red_color (CellColor.rgbStr "FFFF0000".data) = true ∧
    rowSkipped c4RedAtStatusRow = false ∧
    skippedIndices [c4RedAtStatusRow] = [] := by
  decide

/-- C4 (amended): a row is skipped for the run if and only if the cell at
zero-based column position 5 has a red fill, in either indexed (`index == 2`)
or literal hex (last six characters `ff0000`, case-insensitive) form; skipped
indices never appear among the valid entries that get fetched and updated. -/
theorem c4_skip_iff_red_at_col5 (rows : List RowIn) (i : Nat)
    (hi : i < rows.length) :
    (i ∈ skippedIndices rows ↔
      ∃ c, (rows.getD i defaultRowIn).fills.getD 5 none = some c ∧
        is_red_color c = true) ∧
    (∀ c, is_red_color c = true ↔
      ((∃ s, c = CellColor.rgbStr s ∧
          (lastChars 6 s).map Char.toLower = "ff0000".data) ∨
        c = CellColor.indexed 2)) ∧
    (i ∈ skippedIndices rows →
      ∀ e ∈ validEntries rows (skippedIndices rows), e.1 ≠ i) := by
  refine ⟨?_, ?_, ?_⟩
  · constructor
    · intro h
      obtain ⟨t, ht, hj, hs⟩ := (mem_skippedIndicesAux_iff rows 0 i).mp h
      have h5 : t = i := by omega
      subst h5
      exact (rowSkipped_iff _).mp hs
    · intro h
      exact mem_skippedIndices rows i hi ((rowSkipped_iff _).mpr h)
  · intro c
    cases c with
    | rgbStr s => simp [is_red_color]
    | indexed n => simp [is_red_color]
  · intro h e he hcontra
    have h4 := validEntriesAux_not_skipped (skippedIndices rows) rows 0 e he
    refine h4 ?_
    rw [hcontra]
    exact h

/-- C4 witness: on the concrete sheet, the row with the indexed-red fill at
column 5 is index 0 of the skip list, via the amended characterisation. -/
theorem c4_skip_iff_red_at_col5_witness :
    0 ∈ skippedIndices wRows :=
  ((c4_skip_iff_red_at_col5 wRows 0 (by decide)).1).mpr
    ⟨.indexed 2, by decide, by decide⟩

end Ophelia
